import Mathlib

/-!
A shallow embedding of `src/filesystem.py` and a verification of the
behavioural claims about it.  Python strings appear as Lean `String`s
(or, in the rename model, as lists of characters), the on-disk state is
an explicit record threaded through the operations, and Python
exceptions become `Except` errors.
-/

set_option autoImplicit false

/-- The source's `FileMode` enum: the four creation modes. -/
inductive FileMode where
  | FIND
  | CREATE
  | UPDATE
  | OVERWRITE
deriving DecidableEq, Repr

/-- Handle kinds: the source's `Folder` and `File` subclasses of `SysObj`. -/
inductive Kind where
  | folder
  | file
deriving DecidableEq, Repr

/-- Python exceptions raised on the embedded code paths. -/
inductive PyError where
  | fileNotFoundError
  | fileExistsError
  | assertionError
  | permissionError
  | isADirectoryError
  | notADirectoryError
  | directoryNotEmptyError
deriving DecidableEq, Repr

/-- Model of the on-disk state: the present non-directory paths, the present
directory paths, and an inode map giving filesystem identity
(`os.path.samefile` compares underlying files, not path strings). -/
structure Fs where
  files : List String
  dirs : List String
  ino : String → Nat

/-- `Path.exists()` on the model. -/
def pathExists (fs : Fs) (p : String) : Bool :=
  fs.files.contains p || fs.dirs.contains p

/-- `Path.is_dir()` on the model. -/
def isDirFs (fs : Fs) (p : String) : Bool :=
  fs.dirs.contains p

/-- Whether `q` is `d` itself or lies strictly inside the directory `d`. -/
def isUnder (d q : String) : Bool :=
  q == d || (d ++ "/").isPrefixOf q

/-- `shutil.rmtree`: removes a directory together with its whole subtree. -/
def rmtree (fs : Fs) (p : String) : Fs :=
  { fs with
    files := fs.files.filter (fun q => !(isUnder p q)),
    dirs := fs.dirs.filter (fun q => !(isUnder p q)) }

/-- `os.remove`: removes a single non-directory path. -/
def os_remove (fs : Fs) (p : String) : Fs :=
  { fs with files := fs.files.filter (fun q => q != p) }

/-- `delete_path` from the source: `rmtree` for directories, `os.remove`
otherwise, deciding by a live `is_dir` check. -/
def delete_path (fs : Fs) (p : String) : Fs :=
  if isDirFs fs p then rmtree fs p else os_remove fs p

/-- `os.mkdir` on the model. -/
def os_mkdir (fs : Fs) (p : String) : Fs :=
  { fs with dirs := p :: fs.dirs }

/-- `open(path, 'w').close()` on the model: creates an empty file. -/
def touchFile (fs : Fs) (p : String) : Fs :=
  { fs with files := p :: fs.files }

/-- The `__create__` override of each handle kind: `Folder.__create__` is
`os.mkdir`, `File.__create__` opens the path for writing and closes it. -/
def createAction (k : Kind) (fs : Fs) (p : String) : Fs :=
  match k with
  | .folder => os_mkdir fs p
  | .file => touchFile fs p

/-- Splits a character list at every `/`, the way Python splits a path
string into its segments (paths are taken in canonical form, without a
trailing separator). -/
def splitSegs : List Char → List (List Char)
  | [] => [[]]
  | c :: rest =>
      let r := splitSegs rest
      if c == '/' then [] :: r
      else
        match r with
        | [] => [[c]]
        | s :: ss => (c :: s) :: ss

/-- The `/`-separated segments of a path string. -/
def segsOf (p : String) : List String :=
  (splitSegs p.data).map (fun l => String.mk l)

/-- `pathlib.Path.name`: the final path segment. -/
def pathName (p : String) : String :=
  ((segsOf p).getLast?).getD ""

/-- Whether a handle kind expects a directory on disk. -/
def kindIsDir : Kind → Bool
  | .folder => true
  | .file => false

/-- The `__validate__` overrides: when the path was detected on disk,
`Folder.__validate__` asserts it is a directory and `File.__validate__`
asserts it is not.  Returns `true` when the assertion passes. -/
def validateKind (k : Kind) (was_detected is_dir : Bool) : Bool :=
  !(was_detected && (is_dir != kindIsDir k))

/-- The in-memory fields of a `SysObj` that the claims are about. -/
structure Handle where
  path : String
  name : String
  was_detected : Bool
  is_dir : Bool
  protected_ : Bool
  is_root : Bool
deriving DecidableEq, Repr

/-- Process-wide state: the on-disk model plus `runtime_properties.root`
(stored here by its path, the only field `__init__` reads from it). -/
structure St where
  fs : Fs
  root : Option String

/-- Builds the handle record produced by a successful `__init__`. -/
def mkHandle (p : String) (wd idir iroot : Bool) : Handle :=
  { path := p, name := pathName p, was_detected := wd, is_dir := idir,
    protected_ := false, is_root := iroot }

/-- `SysObj.__init__` with `parent=None`, threading the on-disk and
process-wide state.  Follows the source order: sample existence and
directory-ness once, adopt the handle as root when none is set yet,
validate the kind, reconcile the requested mode against the sampled
existence (creating or removing as the table dictates), and finally
compute `is_root` by `os.path.samefile` against the process root. -/
def SysObj_init (k : Kind) (p : String) (mode : FileMode) (s : St) :
    Except PyError Handle × St :=
  let was_detected := pathExists s.fs p
  let is_dir := isDirFs s.fs p
  let root := match s.root with
    | none => p
    | some r => r
  let s1 : St := { s with root := some root }
  if !(validateKind k was_detected is_dir) then (.error .assertionError, s1)
  else
    match mode with
    | .FIND =>
        if !was_detected then (.error .fileNotFoundError, s1)
        else (.ok (mkHandle p was_detected is_dir (s1.fs.ino p == s1.fs.ino root)), s1)
    | .CREATE =>
        if was_detected then (.error .fileExistsError, s1)
        else
          let s2 : St := { s1 with fs := createAction k s1.fs p }
          (.ok (mkHandle p was_detected is_dir (s2.fs.ino p == s2.fs.ino root)), s2)
    | .UPDATE =>
        if !was_detected then
          let s2 : St := { s1 with fs := createAction k s1.fs p }
          (.ok (mkHandle p was_detected is_dir (s2.fs.ino p == s2.fs.ino root)), s2)
        else (.ok (mkHandle p was_detected is_dir (s1.fs.ino p == s1.fs.ino root)), s1)
    | .OVERWRITE =>
        let s2 : St := if was_detected then { s1 with fs := delete_path s1.fs p } else s1
        let s3 : St := { s2 with fs := createAction k s2.fs p }
        (.ok (mkHandle p was_detected is_dir (s3.fs.ino p == s3.fs.ino root)), s3)

/-- `SysObj.rm`: refuses with `PermissionError` when the handle is protected,
otherwise calls `delete_path` on the handle's path. -/
def SysObj_rm (h : Handle) (fs : Fs) : Except PyError Unit × Fs :=
  if h.protected_ then (.error .permissionError, fs)
  else (.ok (), delete_path fs h.path)

/-- Model of `pathlib` pure paths: an absoluteness flag plus the list of name
segments.  `parts` matches `pathlib.PurePath.parts`, whose first element is
the root marker for absolute paths. -/
structure PyPath where
  absolute : Bool
  segs : List String
deriving DecidableEq, Repr

/-- `pathlib.PurePath.parts` on the model. -/
def PyPath.parts (p : PyPath) : List String :=
  (if p.absolute then ["/"] else []) ++ p.segs

/-- `os.path.join(str(parent), str(child))`: an absolute second argument
discards the first, otherwise the segment lists concatenate. -/
def os_path_join (par q : PyPath) : PyPath :=
  if q.absolute then q else { absolute := par.absolute, segs := par.segs ++ q.segs }

/-- `parse_path` from the source: with no parent the path is returned as it
came from `ensure_path`; with a parent the path must have exactly one part
(the source's `assert len(path.parts) == 1`) and is joined onto the parent. -/
def parse_path (parent : Option PyPath) (path : PyPath) : Except PyError PyPath :=
  match parent with
  | none => .ok path
  | some par =>
      if path.parts.length == 1 then .ok (os_path_join par path)
      else .error .assertionError

/-- Joins segments back with `/` separators. -/
def joinSegs : List String → String
  | [] => ""
  | [s] => s
  | s :: rest => s ++ "/" ++ joinSegs rest

/-- `os.path.dirname` on the model. -/
def dirname (p : String) : String :=
  joinSegs ((segsOf p).dropLast)

/-- `os.path.join` of a directory and a bare entry name. -/
def joinName (d n : String) : String := d ++ "/" ++ n

/-- A child handle as stored in `Folder._directory`: the wrapped path and
whether `assign_type` chose the `Folder` or the `File` class for it. -/
structure Child where
  path : String
  kind : Kind
deriving DecidableEq, Repr

/-- `assign_type` from the source: wrap a path as a directory handle when it
is itself a directory, else as a file handle. -/
def assign_type (fs : Fs) (p : String) : Child :=
  if isDirFs fs p then { path := p, kind := .folder }
  else { path := p, kind := .file }

/-- `os.listdir`: the names of the immediate entries of a directory. -/
def os_listdir (fs : Fs) (p : String) : List String :=
  ((fs.files ++ fs.dirs).filter (fun q => dirname q == p)).map pathName

/-- The mutable per-folder state set up by `Folder.__configure__`: the
`_indexed` flag and the `_directory` child mapping. -/
structure FolderSt where
  indexed : Bool
  directory : List (String × Child)
deriving DecidableEq, Repr

/-- `Folder.__configure__`: a fresh folder starts unindexed and empty. -/
def Folder_configure : FolderSt :=
  { indexed := false, directory := [] }

/-- `Folder._update_dir`: a full `os.listdir` of the folder, each entry
wrapped by `assign_type`, replacing the whole mapping. -/
def Folder_update_dir (fs : Fs) (p : String) (st : FolderSt) : FolderSt :=
  { st with
    directory := (os_listdir fs p).map (fun n => (n, assign_type fs (joinName p n))) }

/-- The watcher callback wired by `Folder.__configure__` for creation events
of direct children: it re-runs `Folder._update_dir`. -/
def Folder_on_created (fs : Fs) (p : String) (st : FolderSt) : FolderSt :=
  Folder_update_dir fs p st

/-- The watcher callback wired by `Folder.__configure__` for deletion events
of direct children: it re-runs `Folder._update_dir`. -/
def Folder_on_deleted (fs : Fs) (p : String) (st : FolderSt) : FolderSt :=
  Folder_update_dir fs p st

/-- The `Folder.directory` property: on first access flips `_indexed` and
performs the full listing, afterwards returns the stored mapping. -/
def Folder_directory (fs : Fs) (p : String) (st : FolderSt) :
    List (String × Child) × FolderSt :=
  if st.indexed = false then
    let st1 := Folder_update_dir fs p { st with indexed := true }
    (st1.directory, st1)
  else (st.directory, st)

/-- Python `dict` lookup on the association-list model of `_directory`. -/
def lookupName (l : List (String × Child)) (k : String) : Option Child :=
  (l.find? (fun e => e.1 == k)).map (fun e => e.2)

/-- `Folder._search_dir`: looks the target up in the `directory` property;
a miss prints a message and falls through, returning `None`. -/
def Folder_search_dir (fs : Fs) (p target : String) (st : FolderSt) :
    Option Child × FolderSt :=
  let r := Folder_directory fs p st
  match lookupName r.1 target with
  | some c => (some c, r.2)
  | none => (none, r.2)

set_option linter.unusedVariables false in
/-- `Folder.get(target, timeout=options.defaults.timeout)`: despite its
timeout parameter it only delegates to `Folder._search_dir` (the source marks
the wait-for-file functionality as an unimplemented TODO). -/
def Folder_get (fs : Fs) (p target : String) (timeout : Nat) (st : FolderSt) :
    Option Child × FolderSt :=
  Folder_search_dir fs p target st

/-- A concrete state used to witness the reconciliation claims: the current
directory exists and holds one file `a.txt`. -/
def s0 : St :=
  { fs := { files := ["a.txt"], dirs := ["."], ino := fun _ => 0 }, root := some "." }

/-- A concrete protected handle on the file `a.txt`. -/
def hProt : Handle :=
  { path := "a.txt", name := "a.txt", was_detected := true, is_dir := false,
    protected_ := true, is_root := false }

/-- A concrete unprotected handle on the file `a.txt`. -/
def hFree : Handle :=
  { path := "a.txt", name := "a.txt", was_detected := true, is_dir := false,
    protected_ := false, is_root := false }

/-- A concrete relative single-segment path. -/
def relFoo : PyPath := { absolute := false, segs := ["foo"] }

/-- A concrete absolute parent path. -/
def basePath : PyPath := { absolute := true, segs := ["base"] }

/-- A concrete relative two-segment path. -/
def abPath : PyPath := { absolute := false, segs := ["a", "b"] }

/-- A concrete relative one-segment path. -/
def aPath : PyPath := { absolute := false, segs := ["a"] }

/-- A concrete on-disk state for the folder claims: directory `d` holds the
file `d/a.txt` and the subdirectory `d/sub`. -/
def fsD : Fs :=
  { files := ["d/a.txt"], dirs := ["d", "d/sub"], ino := fun _ => 0 }

/-- A concrete indexed folder state holding one child `a.txt`. -/
def stIndexed : FolderSt :=
  { indexed := true, directory := [("a.txt", { path := "d/a.txt", kind := .file })] }

/-- Runs a list of handle-construction requests `(kind, path, mode)` in
order, threading the process state and collecting each constructor's
outcome. -/
def runSeq (reqs : List (Kind × String × FileMode)) (s : St) :
    List (Except PyError Handle) × St :=
  match reqs with
  | [] => ([], s)
  | r :: rs =>
      let e := SysObj_init r.1 r.2.1 r.2.2 s
      let rest := runSeq rs e.2
      (e.1 :: rest.1, rest.2)

/-- The module-level statement `runtime_properties.root = Folder('.',
mode=FileMode.FIND)` executed at import time: the first handle the process
ever constructs.  Inside `__init__` the fresh handle already adopted itself
as root, so the subsequent assignment stores the same handle again. -/
def importInit (s : St) : Except PyError Handle × St :=
  let e := SysObj_init .folder "." .FIND s
  match e.1 with
  | .ok h => (.ok h, { e.2 with root := some h.path })
  | .error err => (.error err, e.2)

/-- A fresh pre-import process state: root not yet designated, current
directory present on disk. -/
def sFresh : St :=
  { fs := { files := ["a.txt"], dirs := ["."], ino := fun _ => 0 }, root := none }

/-- An entry of one directory in the rename model: a file, or a
subdirectory whose emptiness is tracked because POSIX `rename` onto a
directory target succeeds only when the target is an empty directory. -/
inductive Ent where
  | file
  | dir (isEmpty : Bool)
deriving DecidableEq, Repr

/-- Whether an entry is a directory. -/
def Ent.isDirEnt : Ent → Bool
  | .file => false
  | .dir _ => true

/-- The entries of one directory, keyed by entry name.  Names are modelled
as lists of characters (Python `str`). -/
abbrev DirFs := List (List Char × Ent)

/-- Lookup of a name among a directory's entries. -/
def lookupEnt (d : DirFs) (n : List Char) : Option Ent :=
  (d.find? (fun e => e.1 == n)).map (fun e => e.2)

/-- POSIX semantics of `os.rename` within one directory: a missing source
fails; an existing target is silently replaced when source and target are
both files or when both are directories and the target is empty; mismatched
kinds or a nonempty directory target fail with the corresponding `OSError`.
Crucially, a file-over-file rename raises nothing. -/
def os_rename (d : DirFs) (src dst : List Char) : Except PyError DirFs :=
  match lookupEnt d src with
  | none => .error .fileNotFoundError
  | some k =>
      match lookupEnt d dst with
      | none => .ok (d.filter (fun e => e.1 != src) ++ [(dst, k)])
      | some .file =>
          if k.isDirEnt then .error .notADirectoryError
          else .ok (d.filter (fun e => e.1 != src && e.1 != dst) ++ [(dst, k)])
      | some (.dir true) =>
          if k.isDirEnt then
            .ok (d.filter (fun e => e.1 != src && e.1 != dst) ++ [(dst, k)])
          else .error .isADirectoryError
      | some (.dir false) =>
          if k.isDirEnt then .error .directoryNotEmptyError
          else .error .isADirectoryError

/-- The handle state relevant to the dot-convention hide model: the
handle's name within its directory. -/
structure LHandle where
  name : List Char
deriving DecidableEq, Repr

/-- `SysObj._ishidden` on a dot-convention (non-Windows) platform: the name
starts with `.`. -/
def ishidden_posix (n : List Char) : Bool :=
  match n with
  | [] => false
  | c :: _ => c == '.'

/-- `SysObj.hide` on a dot-convention (non-Windows) platform: an early
return when asked to hide an already hidden handle; otherwise the new name
is `.name` when hiding and `name[1:]` when unhiding, the backing path is
renamed with `os.rename` (no prior existence check of the target), and the
handle is reinitialised with `__init__(new_path, mode=FIND)` — modelled by
the final existence check on the renamed name. -/
def SysObj_hide_posix (d : DirFs) (h : LHandle) (hideArg : Bool) :
    Except PyError (DirFs × LHandle) :=
  if hideArg && ishidden_posix h.name then .ok (d, h)
  else
    let newName : List Char := if hideArg then '.' :: h.name else h.name.drop 1
    match os_rename d h.name newName with
    | .error e => .error e
    | .ok d1 =>
        match lookupEnt d1 newName with
        | none => .error .fileNotFoundError
        | some _ => .ok (d1, { name := newName })

/-- `SysObj._ishidden` on Windows: the `FILE_ATTRIBUTE_HIDDEN` bit (0x02) of
the file's attribute word. -/
def ishidden_win (attrs : Nat) : Bool :=
  attrs &&& 2 != 0

/-- `SysObj.hide` on Windows: an early return when asked to hide an already
hidden handle; hiding calls `SetFileAttributesW(path, 0x02)` (the attribute
word becomes exactly 0x02), unhiding writes back `attrs & ~0x02`.  The name
is never touched. -/
def SysObj_hide_win (attrs : Nat) (name : String) (hideArg : Bool) :
    Nat × String :=
  if hideArg && ishidden_win attrs then (attrs, name)
  else if hideArg then (2, name)
  else (attrs &&& 0xFFFFFFFD, name)

/-- A concrete directory for the hide claims: the visible file `foo` and the
already-present hidden file `.foo`. -/
def dFooBoth : DirFs :=
  [(['f', 'o', 'o'], Ent.file), (['.', 'f', 'o', 'o'], Ent.file)]

/-- A concrete directory holding only the visible file `foo`. -/
def dFoo : DirFs :=
  [(['f', 'o', 'o'], Ent.file)]

/-- A concrete directory holding only the visible file `fo`. -/
def dFo : DirFs :=
  [(['f', 'o'], Ent.file)]

/-- Membership survives a filter whose predicate holds nowhere on the value:
the filtered list can then never contain it. -/
theorem contains_filter_false {α : Type} [BEq α] [LawfulBEq α]
    (l : List α) (f : α → Bool) (q : α) (hq : f q = false) :
    (l.filter f).contains q = false := by
  induction l with
  | nil => rfl
  | cons a t ih =>
      by_cases hqa : a = q
      · subst hqa
        rw [List.filter_cons_of_neg (by simp [hq])]
        exact ih
      · rcases hfa : f a with _ | _
        · simpa [List.filter, hfa] using ih
        · simp only [List.filter, hfa, List.contains_cons]
          have : (q == a) = false := by
            simp [beq_eq_false_iff_ne]
            exact fun hc => hqa hc.symm
          simpa [this] using ih

/-- C1: for every requested mode and every sampled existence state (with the
on-disk kind matching the handle kind, as the table presumes valid pairs),
`SysObj.__init__` follows the reconciliation table exactly: FIND on an absent
path fails `FileNotFoundError`; FIND on a present path performs no filesystem
action; CREATE on a present path fails `FileExistsError` and performs no
filesystem mutation; CREATE on an absent path creates it; UPDATE creates
exactly when absent; OVERWRITE removes the existing path when present and
then creates it. -/
theorem C1_reconciliation (k : Kind) (p : String) (s : St)
    (hk : pathExists s.fs p = true → isDirFs s.fs p = kindIsDir k) :
    (pathExists s.fs p = false →
        (SysObj_init k p .FIND s).1 = .error .fileNotFoundError
        ∧ (SysObj_init k p .FIND s).2.fs = s.fs)
    ∧ (pathExists s.fs p = true →
        (∃ h, (SysObj_init k p .FIND s).1 = .ok h)
        ∧ (SysObj_init k p .FIND s).2.fs = s.fs)
    ∧ (pathExists s.fs p = true →
        (SysObj_init k p .CREATE s).1 = .error .fileExistsError
        ∧ (SysObj_init k p .CREATE s).2.fs = s.fs)
    ∧ (pathExists s.fs p = false →
        (∃ h, (SysObj_init k p .CREATE s).1 = .ok h)
        ∧ (SysObj_init k p .CREATE s).2.fs = createAction k s.fs p)
    ∧ (pathExists s.fs p = true →
        (∃ h, (SysObj_init k p .UPDATE s).1 = .ok h)
        ∧ (SysObj_init k p .UPDATE s).2.fs = s.fs)
    ∧ (pathExists s.fs p = false →
        (∃ h, (SysObj_init k p .UPDATE s).1 = .ok h)
        ∧ (SysObj_init k p .UPDATE s).2.fs = createAction k s.fs p)
    ∧ (pathExists s.fs p = true →
        (∃ h, (SysObj_init k p .OVERWRITE s).1 = .ok h)
        ∧ (SysObj_init k p .OVERWRITE s).2.fs = createAction k (delete_path s.fs p) p)
    ∧ (pathExists s.fs p = false →
        (∃ h, (SysObj_init k p .OVERWRITE s).1 = .ok h)
        ∧ (SysObj_init k p .OVERWRITE s).2.fs = createAction k s.fs p) := by
  refine ⟨?_, ?_, ?_, ?_, ?_, ?_, ?_, ?_⟩ <;> intro he
  · simp [SysObj_init, validateKind, he]
  · simp [SysObj_init, validateKind, he, hk he]
  · simp [SysObj_init, validateKind, he, hk he]
  · simp [SysObj_init, validateKind, he]
  · simp [SysObj_init, validateKind, he, hk he]
  · simp [SysObj_init, validateKind, he]
  · simp [SysObj_init, validateKind, he, hk he]
  · simp [SysObj_init, validateKind, he]

/-- Witness for C1 at concrete inputs: the present file `a.txt` and the
absent file `b.txt` in the state `s0`. -/
theorem C1_reconciliation_witness :
    ((pathExists s0.fs "a.txt" = true → isDirFs s0.fs "a.txt" = kindIsDir .file)
      ∧ ((SysObj_init .file "a.txt" .CREATE s0).1 = .error .fileExistsError
          ∧ (SysObj_init .file "a.txt" .CREATE s0).2.fs = s0.fs))
    ∧ ((pathExists s0.fs "b.txt" = true → isDirFs s0.fs "b.txt" = kindIsDir .file)
      ∧ ((∃ h, (SysObj_init .file "b.txt" .CREATE s0).1 = .ok h)
          ∧ (SysObj_init .file "b.txt" .CREATE s0).2.fs = createAction .file s0.fs "b.txt")) :=
  ⟨⟨by decide, (C1_reconciliation .file "a.txt" s0 (by decide)).2.2.1 (by decide)⟩,
   ⟨by decide, (C1_reconciliation .file "b.txt" s0 (by decide)).2.2.2.1 (by decide)⟩⟩

/-- C7: removal on a protected handle signals `PermissionError` and leaves the
on-disk state untouched (the backing path remains); removal on an unprotected
handle deletes the backing file, or recursively deletes the whole backing
directory tree when the path is a directory. -/
theorem C7_remove (h : Handle) (fs : Fs) :
    (h.protected_ = true →
        SysObj_rm h fs = (.error .permissionError, fs)
        ∧ pathExists (SysObj_rm h fs).2 h.path = pathExists fs h.path)
    ∧ (h.protected_ = false →
        (SysObj_rm h fs).1 = .ok ()
        ∧ (isDirFs fs h.path = true →
            ∀ q, isUnder h.path q = true → pathExists (SysObj_rm h fs).2 q = false)
        ∧ (isDirFs fs h.path = false →
            pathExists (SysObj_rm h fs).2 h.path = false)) := by
  constructor
  · intro hp
    simp [SysObj_rm, hp]
  · intro hp
    refine ⟨by simp [SysObj_rm, hp], ?_, ?_⟩
    · intro hd q hq
      simp only [SysObj_rm, hp, Bool.false_eq_true, if_false]
      simp only [delete_path, hd, if_true, rmtree, pathExists]
      rw [contains_filter_false _ _ _ (by simp [hq]),
        contains_filter_false _ _ _ (by simp [hq])]
      rfl
    · intro hd
      simp only [SysObj_rm, hp, Bool.false_eq_true, if_false]
      simp only [delete_path, hd, Bool.false_eq_true, if_false, os_remove, pathExists]
      rw [contains_filter_false _ _ _ (by simp)]
      simpa [isDirFs] using hd

/-- Witness for C7: a protected handle on the present file `a.txt` is refused
with the state untouched; an unprotected handle on it deletes it. -/
theorem C7_remove_witness :
    (hProt.protected_ = true ∧ SysObj_rm hProt s0.fs = (.error .permissionError, s0.fs))
    ∧ (hFree.protected_ = false
        ∧ pathExists (SysObj_rm hFree s0.fs).2 "a.txt" = false) :=
  ⟨⟨rfl, ((C7_remove hProt s0.fs).1 rfl).1⟩,
   ⟨rfl, ((C7_remove hFree s0.fs).2 rfl).2.2 (by decide)⟩⟩

/-- Counterexample for C5: with no parent, `parse_path` hands back the given
path unchanged, so a relative argument stays relative — it is not normalized
to an absolute path as the claim states. -/
theorem C5_counterexample :
    parse_path none relFoo = .ok relFoo ∧ relFoo.absolute = false :=
  ⟨rfl, rfl⟩

/-- C5 (amended): path resolution is a pure function such that with no parent
it returns the given path unchanged (no normalization to absolute); with a
parent, a value that is not a single path part is rejected as an assertion
(contract) error, and a single-part value yields the parent joined with it. -/
theorem C5_amended (parent : Option PyPath) (given : PyPath) :
    (parent = none → parse_path parent given = .ok given)
    ∧ (∀ par, parent = some par →
        (given.parts.length ≠ 1 →
            parse_path parent given = .error .assertionError)
        ∧ (given.parts.length = 1 →
            parse_path parent given = .ok (os_path_join par given))) := by
  constructor
  · intro hn
    subst hn
    rfl
  · intro par hp
    subst hp
    constructor
    · intro hlen
      simp [parse_path, hlen]
    · intro hlen
      simp [parse_path, hlen]

/-- Witness for C5 (amended): a multi-segment child is rejected and a
single-segment child is joined onto the parent. -/
theorem C5_amended_witness :
    (abPath.parts.length ≠ 1
      ∧ parse_path (some basePath) abPath = .error .assertionError)
    ∧ (aPath.parts.length = 1
      ∧ parse_path (some basePath) aPath = .ok (os_path_join basePath aPath)) :=
  ⟨⟨by decide, ((C5_amended (some basePath) abPath).2 _ rfl).1 (by decide)⟩,
   ⟨by decide, ((C5_amended (some basePath) aPath).2 _ rfl).2 (by decide)⟩⟩

/-- C6: the first access to `Folder.directory` performs a full listing of the
immediate entries, wraps each as a folder or file handle according to whether
it is itself a directory, stores the mapping and sets the indexed flag; any
later access returns the stored mapping unchanged without re-listing; and a
create or delete notification for a direct child rebuilds the whole mapping
by a full re-listing. -/
theorem C6_lazy_index (fs : Fs) (p : String) (st : FolderSt) :
    (st.indexed = false →
        Folder_directory fs p st
          = ((os_listdir fs p).map (fun n => (n, assign_type fs (joinName p n))),
             { indexed := true,
               directory :=
                 (os_listdir fs p).map (fun n => (n, assign_type fs (joinName p n))) }))
    ∧ (st.indexed = true → Folder_directory fs p st = (st.directory, st))
    ∧ ((Folder_on_created fs p st).directory
        = (os_listdir fs p).map (fun n => (n, assign_type fs (joinName p n))))
    ∧ ((Folder_on_deleted fs p st).directory
        = (os_listdir fs p).map (fun n => (n, assign_type fs (joinName p n))))
    ∧ (∀ q, (assign_type fs q).kind
        = if isDirFs fs q then Kind.folder else Kind.file) := by
  refine ⟨?_, ?_, rfl, rfl, ?_⟩
  · intro hidx
    simp [Folder_directory, Folder_update_dir, hidx]
  · intro hidx
    simp [Folder_directory, hidx]
  · intro q
    by_cases hq : isDirFs fs q = true
    · simp [assign_type, hq]
    · simp only [Bool.not_eq_true] at hq
      simp [assign_type, hq]

/-- Witness for C6: in `fsD`, the first access to directory `d` lists the
file child `a.txt` and the folder child `sub` with the right kinds, and a
second access returns that mapping unchanged. -/
theorem C6_lazy_index_witness :
    (Folder_configure.indexed = false
      ∧ Folder_directory fsD "d" Folder_configure
          = ((os_listdir fsD "d").map (fun n => (n, assign_type fsD (joinName "d" n))),
             { indexed := true,
               directory :=
                 (os_listdir fsD "d").map (fun n => (n, assign_type fsD (joinName "d" n))) }))
    ∧ ((Folder_directory fsD "d" Folder_configure).2.indexed = true
      ∧ Folder_directory fsD "d" (Folder_directory fsD "d" Folder_configure).2
          = ((Folder_directory fsD "d" Folder_configure).2.directory,
             (Folder_directory fsD "d" Folder_configure).2))
    ∧ (os_listdir fsD "d").map (fun n => (n, assign_type fsD (joinName "d" n)))
        = [("a.txt", { path := "d/a.txt", kind := .file }),
           ("sub", { path := "d/sub", kind := .folder })] :=
  ⟨⟨rfl, (C6_lazy_index fsD "d" Folder_configure).1 rfl⟩,
   ⟨by decide,
    (C6_lazy_index fsD "d" (Folder_directory fsD "d" Folder_configure).2).2.1 (by decide)⟩,
   by decide⟩

/-- C9: on an indexed folder, looking up a name absent from the child index
returns the recoverable empty result `none` (no exception is raised — the
return type is total), while looking up a present name returns that child's
handle. -/
theorem C9_lookup_miss (fs : Fs) (p target : String) (st : FolderSt)
    (hidx : st.indexed = true) :
    (lookupName st.directory target = none →
        Folder_search_dir fs p target st = (none, st))
    ∧ (∀ c, lookupName st.directory target = some c →
        Folder_search_dir fs p target st = (some c, st)) := by
  constructor
  · intro hmiss
    simp [Folder_search_dir, Folder_directory, hidx, hmiss]
  · intro c hhit
    simp [Folder_search_dir, Folder_directory, hidx, hhit]

/-- Witness for C9: in the indexed state, the absent name `nope` yields
`none` and the present name `a.txt` yields its handle. -/
theorem C9_lookup_miss_witness :
    (stIndexed.indexed = true
      ∧ Folder_search_dir fsD "d" "nope" stIndexed = (none, stIndexed))
    ∧ Folder_search_dir fsD "d" "a.txt" stIndexed
        = (some { path := "d/a.txt", kind := .file }, stIndexed) :=
  ⟨⟨rfl, (C9_lookup_miss fsD "d" "nope" stIndexed rfl).1 (by decide)⟩,
   (C9_lookup_miss fsD "d" "a.txt" stIndexed rfl).2 _ (by decide)⟩

/-- C2 (code bug): `Folder.get` ignores its timeout argument entirely — for
any two timeouts the results coincide and equal the plain `_search_dir`
lookup — and on a child that never appears it returns the immediate `none`
miss result with no waiting, no `Timeout` signal and no watcher subscription
ever created (the source marks the wait functionality as TODO and the
orphaned `Folder._wait_for_file` helper is never called). -/
theorem C2_get_ignores_timeout :
    (∀ (fs : Fs) (p target : String) (st : FolderSt) (t1 t2 : Nat),
        Folder_get fs p target t1 st = Folder_get fs p target t2 st
        ∧ Folder_get fs p target t1 st = Folder_search_dir fs p target st)
    ∧ Folder_get fsD "d" "missing" 200 stIndexed = (none, stIndexed) :=
  ⟨fun _ _ _ _ _ _ => ⟨rfl, rfl⟩, by decide⟩

/-- Creating a path never changes the inode map. -/
theorem createAction_ino (k : Kind) (fs : Fs) (p : String) :
    (createAction k fs p).ino = fs.ino := by
  cases k <;> rfl

/-- Deleting a path never changes the inode map. -/
theorem delete_path_ino (fs : Fs) (p : String) :
    (delete_path fs p).ino = fs.ino := by
  unfold delete_path
  split <;> rfl

/-- One constructor step never changes the inode map. -/
theorem SysObj_init_fs_ino (k : Kind) (p : String) (m : FileMode) (s : St) :
    (SysObj_init k p m s).2.fs.ino = s.fs.ino := by
  unfold SysObj_init
  cases m <;> simp only []
  all_goals split
  all_goals try rfl
  all_goals simp [createAction_ino, delete_path_ino]
  all_goals split <;> try rfl
  all_goals simp [createAction_ino, delete_path_ino]

/-- One constructor step never reassigns an already designated root. -/
theorem SysObj_init_root_some (k : Kind) (p : String) (m : FileMode) (s : St)
    (r : String) (hr : s.root = some r) :
    (SysObj_init k p m s).2.root = some r := by
  cases m <;> cases hwd : pathExists s.fs p <;>
    simp [SysObj_init, hr, hwd] <;>
    split <;> rfl

/-- A successfully constructed handle carries the requested path, and its
root flag is the inode comparison of that path against the designated root
(`os.path.samefile`), not a path-string comparison. -/
theorem SysObj_init_ok_fields (k : Kind) (p : String) (m : FileMode) (s : St)
    (r : String) (hr : s.root = some r) (hh : Handle)
    (hok : (SysObj_init k p m s).1 = .ok hh) :
    hh.path = p ∧ hh.is_root = (s.fs.ino p == s.fs.ino r) := by
  cases m
  all_goals cases hwd : pathExists s.fs p
  all_goals simp [SysObj_init, hr, hwd] at hok
  all_goals split at hok
  all_goals try simp at hok
  all_goals subst hok
  all_goals simp [mkHandle, createAction_ino, delete_path_ino]

/-- A run of constructions from a state with a designated root keeps the
root, keeps the inode map, and stamps every successful handle's root flag by
inode comparison against the designated root. -/
theorem runSeq_root (reqs : List (Kind × String × FileMode)) (s : St)
    (r : String) (hr : s.root = some r) :
    (runSeq reqs s).2.root = some r
    ∧ (runSeq reqs s).2.fs.ino = s.fs.ino
    ∧ (∀ e ∈ (runSeq reqs s).1, ∀ hh, e = .ok hh →
        hh.is_root = (s.fs.ino hh.path == s.fs.ino r)) := by
  induction reqs generalizing s with
  | nil =>
      refine ⟨hr, rfl, ?_⟩
      intro e he
      simp [runSeq] at he
  | cons a rs ih =>
      have hroot := SysObj_init_root_some a.1 a.2.1 a.2.2 s r hr
      have hino := SysObj_init_fs_ino a.1 a.2.1 a.2.2 s
      obtain ⟨ih1, ih2, ih3⟩ := ih (SysObj_init a.1 a.2.1 a.2.2 s).2 hroot
      refine ⟨?_, ?_, ?_⟩
      · simpa [runSeq] using ih1
      · show (runSeq (a :: rs) s).2.fs.ino = s.fs.ino
        have : (runSeq (a :: rs) s).2 = (runSeq rs (SysObj_init a.1 a.2.1 a.2.2 s).2).2 := rfl
        rw [this, ih2, hino]
      · intro e he hh heq
        have hmem : e = (SysObj_init a.1 a.2.1 a.2.2 s).1
            ∨ e ∈ (runSeq rs (SysObj_init a.1 a.2.1 a.2.2 s).2).1 := by
          simpa [runSeq] using he
        rcases hmem with hcase | hcase
        · subst heq
          obtain ⟨hp, hfl⟩ :=
            SysObj_init_ok_fields a.1 a.2.1 a.2.2 s r hr hh hcase.symm
          rw [hfl, hp]
        · have := ih3 e hcase hh heq
          rw [this, hino]

/-- C8: across every sequence of handle constructions, exactly one
process-wide root exists: the module-level import constructs `Folder('.')`
first, that handle designates itself as root (its own flag is true), the
import-time assignment stores the same path back, no later construction ever
reassigns the root, and every later handle's root flag is computed by inode
identity (`os.path.samefile`) against that root rather than by path-string
equality. -/
theorem C8_single_root (s : St) (reqs : List (Kind × String × FileMode))
    (h0 : s.root = none) (hdir : isDirFs s.fs "." = true) :
    (∃ hh, (importInit s).1 = .ok hh ∧ hh.path = "." ∧ hh.is_root = true)
    ∧ (importInit s).2.root = some "."
    ∧ (runSeq reqs (importInit s).2).2.root = some "."
    ∧ (∀ e ∈ (runSeq reqs (importInit s).2).1, ∀ hh, e = .ok hh →
        hh.is_root = (s.fs.ino hh.path == s.fs.ino ".")) := by
  have hwd : pathExists s.fs "." = true := by
    unfold pathExists
    unfold isDirFs at hdir
    rw [hdir]
    simp
  have himp1 : (importInit s).1
      = .ok (mkHandle "." true true (s.fs.ino "." == s.fs.ino ".")) := by
    simp [importInit, SysObj_init, h0, validateKind, kindIsDir, hwd, hdir, mkHandle]
  have himp2 : (importInit s).2.root = some "." := by
    simp [importInit, SysObj_init, h0, validateKind, kindIsDir, hwd, hdir, mkHandle]
  have himpfs : (importInit s).2.fs.ino = s.fs.ino := by
    simp [importInit, SysObj_init, h0, validateKind, kindIsDir, hwd, hdir, mkHandle]
  obtain ⟨hr1, hr2, hr3⟩ := runSeq_root reqs (importInit s).2 "." himp2
  refine ⟨?_, himp2, hr1, ?_⟩
  · refine ⟨mkHandle "." true true (s.fs.ino "." == s.fs.ino "."), himp1, rfl, ?_⟩
    simp [mkHandle]
  · intro e he hh heq
    rw [hr3 e he hh heq, himpfs]

/-- Witness for C8: from a fresh pre-import state, the import designates `.`
as root and a later construction of the file `c.txt` keeps it; the new
handle's flag is the inode comparison. -/
theorem C8_single_root_witness :
    (sFresh.root = none ∧ isDirFs sFresh.fs "." = true)
    ∧ ((∃ hh, (importInit sFresh).1 = .ok hh ∧ hh.path = "." ∧ hh.is_root = true)
    ∧ (importInit sFresh).2.root = some "."
    ∧ (runSeq [(.file, "c.txt", .UPDATE)] (importInit sFresh).2).2.root = some "."
    ∧ (∀ e ∈ (runSeq [(.file, "c.txt", .UPDATE)] (importInit sFresh).2).1,
        ∀ hh, e = .ok hh →
        hh.is_root = (sFresh.fs.ino hh.path == sFresh.fs.ino "."))) :=
  ⟨⟨rfl, by decide⟩,
   C8_single_root sFresh [(.file, "c.txt", .UPDATE)] rfl (by decide)⟩

/-- A name absent from a directory stays absent after any filtering. -/
theorem lookupEnt_filter_none (d : DirFs) (f : List Char × Ent → Bool)
    (n : List Char) (h : lookupEnt d n = none) :
    lookupEnt (d.filter f) n = none := by
  simp only [lookupEnt, Option.map_eq_none'] at h ⊢
  rw [List.find?_eq_none] at h ⊢
  intro x hx
  exact h x (List.mem_of_mem_filter hx)

/-- Appending an entry with a hitherto absent name makes its lookup find
exactly that entry. -/
theorem lookupEnt_append_single (d : DirFs) (n : List Char) (k : Ent)
    (h : lookupEnt d n = none) :
    lookupEnt (d ++ [(n, k)]) n = some k := by
  simp only [lookupEnt, Option.map_eq_none'] at h
  simp only [lookupEnt, List.find?_append, h, Option.none_orElse]
  simp [List.find?]

/-- Appending an entry under a different name keeps an absent name absent. -/
theorem lookupEnt_append_single_ne (d : DirFs) (n m : List Char) (k : Ent)
    (hd : lookupEnt d m = none) (hne : (n == m) = false) :
    lookupEnt (d ++ [(n, k)]) m = none := by
  simp only [lookupEnt, Option.map_eq_none'] at hd ⊢
  rw [List.find?_eq_none] at hd ⊢
  intro x hx
  rcases List.mem_append.mp hx with hx | hx
  · exact hd x hx
  · simp only [List.mem_singleton] at hx
    subst hx
    simp [hne]

/-- Filtering away every entry with a given name leaves that name absent. -/
theorem lookupEnt_filter_self (d : DirFs) (src : List Char) :
    lookupEnt (d.filter (fun e => e.1 != src)) src = none := by
  simp only [lookupEnt, Option.map_eq_none']
  rw [List.find?_eq_none]
  intro x hx
  have h2 := (List.mem_filter.mp hx).2
  simp only [bne_iff_ne, ne_eq] at h2
  simp [h2]

/-- C3 (code bug): hiding the visible file `foo` while the hidden variant
`.foo` already exists in the same directory does not signal
`AlreadyExists`/`FileExistsError` as the claim and the method's own
docstring require: the unguarded POSIX rename silently replaces the existing
`.foo`, the call returns successfully, and only the clobbered `.foo`
remains. -/
theorem C3_hide_collision :
    SysObj_hide_posix dFooBoth { name := ['f', 'o', 'o'] } true
      = .ok ([(['.', 'f', 'o', 'o'], Ent.file)], { name := ['.', 'f', 'o', 'o'] }) := rfl

/-- C4: for an initially visible handle, hide then unhide restores the
original name and visibility state on both strategies: on the dot-convention
strategy the two renames go through (the hidden variant not being taken) and
the final handle carries the original, again visible name; on the
attribute-bit strategy the name is untouched and the hidden bit ends
cleared. -/
theorem C4_roundtrip (d : DirFs) (h : LHandle) (k : Ent) (a : Nat) (nm : String)
    (hvis : ishidden_posix h.name = false)
    (hmem : lookupEnt d h.name = some k)
    (hfresh : lookupEnt d ('.' :: h.name) = none)
    (hwvis : ishidden_win a = false) :
    (∃ d1 d2,
        SysObj_hide_posix d h true = .ok (d1, { name := '.' :: h.name })
        ∧ SysObj_hide_posix d1 { name := '.' :: h.name } false
            = .ok (d2, { name := h.name })
        ∧ ishidden_posix h.name = false)
    ∧ ((SysObj_hide_win (SysObj_hide_win a nm true).1
          (SysObj_hide_win a nm true).2 false).2 = nm
        ∧ ishidden_win (SysObj_hide_win (SysObj_hide_win a nm true).1
            (SysObj_hide_win a nm true).2 false).1 = false) := by
  have hnames : lookupEnt (d.filter (fun e => e.1 != h.name)
      ++ [('.' :: h.name, k)]) ('.' :: h.name) = some k :=
    lookupEnt_append_single _ _ _ (lookupEnt_filter_none d _ _ hfresh)
  have hdstne : (('.' :: h.name : List Char) == h.name) = false := by
    rw [beq_eq_false_iff_ne]
    exact List.cons_ne_self _ _
  have hd1dst : lookupEnt (d.filter (fun e => e.1 != h.name)
      ++ [('.' :: h.name, k)]) h.name = none :=
    lookupEnt_append_single_ne _ _ _ _ (lookupEnt_filter_self d h.name) hdstne
  have hstep1 : SysObj_hide_posix d h true
      = .ok (d.filter (fun e => e.1 != h.name) ++ [('.' :: h.name, k)],
             { name := '.' :: h.name }) := by
    simp [SysObj_hide_posix, os_rename, hvis, hmem, hfresh, hnames]
  have hd2 : lookupEnt ((d.filter (fun e => e.1 != h.name)
        ++ [('.' :: h.name, k)]).filter (fun e => e.1 != ('.' :: h.name))
      ++ [(h.name, k)]) h.name = some k :=
    lookupEnt_append_single _ _ _ (lookupEnt_filter_none _ _ _ hd1dst)
  have hstep2 : SysObj_hide_posix
      (d.filter (fun e => e.1 != h.name) ++ [('.' :: h.name, k)])
      { name := '.' :: h.name } false
      = .ok (((d.filter (fun e => e.1 != h.name)
              ++ [('.' :: h.name, k)]).filter (fun e => e.1 != ('.' :: h.name)))
            ++ [(h.name, k)], { name := h.name }) := by
    simp [SysObj_hide_posix, os_rename, hnames, hd1dst, hd2,
      -List.filter_append, -List.filter_filter, -List.drop_one]
  have hw1 : SysObj_hide_win a nm true = (2, nm) := by
    simp [SysObj_hide_win, hwvis]
  refine ⟨⟨_, _, hstep1, hstep2, hvis⟩, ?_, ?_⟩
  · rw [hw1]
    exact rfl
  · rw [hw1]
    show ishidden_win ((2 : Nat) &&& 0xFFFFFFFD) = false
    decide

/-- Witness for C4: round trip on the file `foo` alone in its directory for
the dot-convention strategy, and on the attribute word 32 for the
attribute-bit strategy. -/
theorem C4_roundtrip_witness :
    (ishidden_posix ['f', 'o', 'o'] = false
      ∧ lookupEnt dFoo ['f', 'o', 'o'] = some Ent.file
      ∧ lookupEnt dFoo ('.' :: ['f', 'o', 'o']) = none
      ∧ ishidden_win 32 = false)
    ∧ ((∃ d1 d2,
          SysObj_hide_posix dFoo { name := ['f', 'o', 'o'] } true
            = .ok (d1, { name := '.' :: ['f', 'o', 'o'] })
          ∧ SysObj_hide_posix d1 { name := '.' :: ['f', 'o', 'o'] } false
              = .ok (d2, { name := ['f', 'o', 'o'] })
          ∧ ishidden_posix ['f', 'o', 'o'] = false)
      ∧ ((SysObj_hide_win (SysObj_hide_win 32 "x" true).1
            (SysObj_hide_win 32 "x" true).2 false).2 = "x"
          ∧ ishidden_win (SysObj_hide_win (SysObj_hide_win 32 "x" true).1
              (SysObj_hide_win 32 "x" true).2 false).1 = false)) :=
  ⟨⟨by decide, by decide, by decide, by decide⟩,
   C4_roundtrip dFoo { name := ['f', 'o', 'o'] } Ent.file 32 "x"
     (by decide) (by decide) (by decide) (by decide)⟩

set_option linter.unusedVariables false in
/-- C10: on the dot convention, unhiding an already visible handle (name
present, not dot-prefixed, the shortened name free) is not a no-op: the
backing entry is renamed to the name with its first character removed and
the handle is reinitialised against that new name.  The visibility
hypothesis scopes the claim; the rename happens regardless. -/
theorem C10_unhide_visible (d : DirFs) (h : LHandle) (k : Ent)
    (hvis : ishidden_posix h.name = false)
    (hmem : lookupEnt d h.name = some k)
    (hfresh : lookupEnt d (h.name.drop 1) = none) :
    SysObj_hide_posix d h false
      = .ok (d.filter (fun e => e.1 != h.name) ++ [(h.name.drop 1, k)],
             { name := h.name.drop 1 })
    ∧ h.name.drop 1 ≠ h.name := by
  have hre : lookupEnt (d.filter (fun e => e.1 != h.name)
      ++ [(h.name.drop 1, k)]) (h.name.drop 1) = some k :=
    lookupEnt_append_single _ _ _ (lookupEnt_filter_none d _ _ hfresh)
  constructor
  · simp [SysObj_hide_posix, os_rename, hmem, hfresh, hre,
      -List.filter_append, -List.filter_filter, -List.drop_one]
  · rcases hn : h.name with _ | ⟨c, t⟩
    · exfalso
      rw [hn] at hmem hfresh
      simp only [List.drop_nil] at hfresh
      rw [hfresh] at hmem
      simp at hmem
    · simp only [List.drop_succ_cons, List.drop_zero]
      exact (List.cons_ne_self c t).symm

/-- Witness for C10: unhiding the visible file `fo` renames it to `o`. -/
theorem C10_unhide_visible_witness :
    (ishidden_posix ['f', 'o'] = false
      ∧ lookupEnt dFo ['f', 'o'] = some Ent.file
      ∧ lookupEnt dFo (['f', 'o'].drop 1) = none)
    ∧ (SysObj_hide_posix dFo { name := ['f', 'o'] } false
        = .ok (dFo.filter (fun e => e.1 != ['f', 'o']) ++ [((['f', 'o'] : List Char).drop 1, Ent.file)],
               { name := ['f', 'o'].drop 1 })
      ∧ (['f', 'o'] : List Char).drop 1 ≠ ['f', 'o']) :=
  ⟨⟨by decide, by decide, by decide⟩,
   C10_unhide_visible dFo { name := ['f', 'o'] } Ent.file
     (by decide) (by decide) (by decide)⟩
